import Mathlib

/-!
Verification of the Wheelbuilder spoke-geometry and BOM engine
(`src/prowheel_pm.py`).

Embedding conventions: Python floats are modelled as exact reals;
`round(x, 1)` is modelled as rounding to the nearest tenth;
Python `math.radians`, `math.cos`, `math.sqrt` become `Real.pi`-based
`radians`, `Real.cos`, `Real.sqrt`; the Python falsiness guard
`not erd or not fd or not holes` on numeric arguments becomes an
equality-with-zero test (missing values reach the solver as the
`dict.get(key, 0)` default, hence as `0`).  Catalog rows (pandas
dataframe rows) are modelled as `(label, attributes)` pairs, with
`str.strip().lower()` modelled character-by-character on `List Char`
(the labels involved are ASCII).  Masses are modelled as exact
rationals.
-/

namespace Wheelbuilder

/-- `math.radians(d)`: degrees to radians. -/
noncomputable def radians (d : ℝ) : ℝ := d * Real.pi / 180

/-- Python `round(x, 1)`: round to one decimal place. -/
noncomputable def round1 (x : ℝ) : ℝ := (round (10 * x) : ℤ) / 10

/-- Embedding of `calculate_spoke` (src/prowheel_pm.py lines 49-59). -/
noncomputable def calculate_spoke (erd fd os holes crosses : ℝ)
    (is_sp : Bool := false) (sp_off : ℝ := 0) : ℝ :=
  if erd = 0 ∨ fd = 0 ∨ holes = 0 then 0
  else
    let r_rim := erd / 2
    let r_hub := fd / 2
    let angle_rad := radians (crosses * 720 / holes)
    if is_sp = false then
      let l_sq := r_rim ^ 2 + r_hub ^ 2 + os ^ 2 -
        2 * r_rim * r_hub * Real.cos angle_rad
      round1 (Real.sqrt (max 0 l_sq) - 1.2)
    else
      let base_l_sq := r_rim ^ 2 + r_hub ^ 2 -
        2 * r_rim * r_hub * Real.cos angle_rad
      round1 (Real.sqrt (max 0 (base_l_sq + os ^ 2)) + sp_off)

/-- The straight-pull length as the SPEC words it (tangent-circle model,
spec §4.1): `d = sqrt(max(0, R² − r²))`, 3-D length `sqrt(d² + lateralOffset²)`,
plus the per-hub-side calibration offset, rounded to 1 decimal place.
Stated only for comparison with `calculate_spoke`. -/
noncomputable def straight_pull_spec_length (erd fd os sp_off : ℝ) : ℝ :=
  let R := erd / 2
  let r := fd / 2
  let d := Real.sqrt (max 0 (R ^ 2 - r ^ 2))
  round1 (Real.sqrt (d ^ 2 + os ^ 2) + sp_off)

/-- The conventional (J-bend) length as the SPEC words it (spec §4.1):
law-of-cosines `L²`, clamped, square-rooted, minus HALF the hole-diameter
correction supplied in the request, rounded to 1 decimal place.
Stated only for comparison with `calculate_spoke`. -/
noncomputable def conventional_spec_length (erd fd os holes crosses corr : ℝ) : ℝ :=
  let R := erd / 2
  let f := fd / 2
  let lacing_angle := radians (crosses * 720 / holes)
  let L_sq := R ^ 2 + f ^ 2 + os ^ 2 - 2 * R * f * Real.cos lacing_angle
  round1 (Real.sqrt (max 0 L_sq) - corr / 2)

/-- `math.sqrt` with Python's partiality made explicit: raises
(`none`) on a negative argument. -/
noncomputable def checked_sqrt (x : ℝ) : Option ℝ :=
  if x < 0 then none else some (Real.sqrt x)

/-- Float division with Python's partiality made explicit: raises
(`none`) on a zero divisor. -/
noncomputable def checked_div (a b : ℝ) : Option ℝ :=
  if b = 0 then none else some (a / b)

/-- `calculate_spoke` with each Python partial operation (the division
by `holes`, the two square roots) routed through its checked form;
`none` models an uncaught `ZeroDivisionError` or math domain error. -/
noncomputable def calculate_spoke_checked (erd fd os holes crosses : ℝ)
    (is_sp : Bool) (sp_off : ℝ) : Option ℝ :=
  if erd = 0 ∨ fd = 0 ∨ holes = 0 then some 0
  else
    match checked_div (crosses * 720) holes with
    | none => none
    | some ratio =>
      let r_rim := erd / 2
      let r_hub := fd / 2
      let angle_rad := radians ratio
      if is_sp = false then
        (checked_sqrt (max 0 (r_rim ^ 2 + r_hub ^ 2 + os ^ 2 -
          2 * r_rim * r_hub * Real.cos angle_rad))).map (fun s => round1 (s - 1.2))
      else
        (checked_sqrt (max 0 (r_rim ^ 2 + r_hub ^ 2 -
          2 * r_rim * r_hub * Real.cos angle_rad + os ^ 2))).map
          (fun s => round1 (s + sp_off))

/-- The solver as invoked from the calculator tab (line 248):
each geometric argument is fetched with `row.get(key, 0)`, so a missing
value arrives as the default `0` (modelled by `Option.getD 0`). -/
noncomputable def calculate_spoke_from_row (erd fd os holes : Option ℝ)
    (crosses : ℝ) (is_sp : Bool) (sp_off : Option ℝ) : ℝ :=
  calculate_spoke (erd.getD 0) (fd.getD 0) (os.getD 0) (holes.getD 0)
    crosses is_sp (sp_off.getD 0)

/-- Python `str.strip` / `str.lower` whitespace test, on the ASCII
whitespace characters that occur in catalog labels. -/
def is_space (c : Char) : Bool := c = ' ' ∨ c = '\t' ∨ c = '\n' ∨ c = '\r'

/-- Python `str.strip()`: drop leading and trailing whitespace. -/
def strip_chars (l : List Char) : List Char :=
  ((l.dropWhile is_space).reverse.dropWhile is_space).reverse

/-- Python `str.lower()` (ASCII). -/
def lower_chars (l : List Char) : List Char := l.map Char.toLower

/-- `str(x).strip().lower()` as applied to a label on either side of the
match in `get_comp_data`. -/
def norm_label (s : String) : List Char := lower_chars (strip_chars s.data)

/-- Embedding of `get_comp_data` (src/prowheel_pm.py lines 41-47): a
catalog is a list of `(label, attributes)` rows; an empty dataframe or a
falsy label gives `{}` (here `none`); otherwise the first row whose
normalized label equals the normalized query is returned. -/
def get_comp_data {α : Type} (df : List (String × α)) (label : String) :
    Option (String × α) :=
  if df.isEmpty || label == "" then none
  else df.find? (fun e => norm_label e.1 == norm_label label)

/-- A catalog row's numeric fields as the weight code reads them:
`weight` via `.get('weight', 0)`, `holes` via `.get('holes', 28)`;
an absent field is `none`. -/
structure CompRow where
  weight : Option ℚ := none
  holes : Option ℕ := none
deriving DecidableEq

/-- `float(get_comp_data(df, label).get('weight', 0))` (lines 92-93,
105-106): the resolved unit mass, zero when the component or its
`weight` field is missing. -/
def comp_weight (df : List (String × CompRow)) (label : String) : ℚ :=
  match get_comp_data df label with
  | some p => p.2.weight.getD 0
  | none => 0

/-- Embedding of the front-wheel weight roll-up (src/prowheel_pm.py
lines 100-109): only computed when the rim resolves; hub mass soft-fails
to zero; hole count defaults to 28; total is
`rim + hub + holes * (spoke + nipple)`. -/
def front_weight (df_rims df_hubs : List (String × CompRow))
    (spoke_weight nipple_weight : ℚ) (f_rim f_hub : String) : ℚ :=
  match get_comp_data df_rims f_rim with
  | some f_rim_row =>
    let f_rim_weight := f_rim_row.2.weight.getD 0
    let f_hub_weight := comp_weight df_hubs f_hub
    let f_hole_count := f_rim_row.2.holes.getD 28
    f_rim_weight + f_hub_weight + (f_hole_count : ℚ) * (spoke_weight + nipple_weight)
  | none => 0

/-- Modelled from the spec: the Recipe Archive (spec §4.5) is absent
from src/ (only the spec describes it).  Its fingerprint is the exact
tuple (rim label, hub label, hole count, cross count, lacing-type
flag). -/
abbrev Fingerprint := String × String × ℕ × ℕ × Bool

/-- Modelled from the spec: a stored Recipe Archive entry (spec §3
RecipeEntry): fingerprint ↦ (left length, right length, hit count). -/
structure RecipeEntry where
  fingerprint : Fingerprint
  left_len : ℚ
  right_len : ℚ
  hit_count : ℕ
deriving DecidableEq

/-- Modelled from the spec: `upsert(fingerprint, leftLength, rightLength)`
(spec §4.5): if no entry matches the fingerprint, create one with
`hitCount = 1` and the given lengths; if one exists, overwrite its
lengths and increment its `hitCount` by 1. -/
def upsert : List RecipeEntry → Fingerprint → ℚ → ℚ → List RecipeEntry
  | [], fp, l, r => [⟨fp, l, r, 1⟩]
  | e :: rest, fp, l, r =>
    if e.fingerprint = fp then ⟨fp, l, r, e.hit_count + 1⟩ :: rest
    else e :: upsert rest fp l r

/-! ## Helper lemmas -/

/-- Rounding to one decimal never drops below `-1.2` when its argument
is at least `-1.2`. -/
lemma round1_ge_neg_six_fifths (x : ℝ) (h : -1.2 ≤ x) : -1.2 ≤ round1 x := by
  unfold round1
  have hfl : (-12 : ℤ) ≤ round (10 * x) := by
    rw [round_eq]
    apply Int.le_floor.mpr
    push_cast
    linarith
  have hc : ((-12 : ℤ) : ℝ) ≤ ((round (10 * x) : ℤ) : ℝ) := by exact_mod_cast hfl
  calc (-1.2 : ℝ) = ((-12 : ℤ) : ℝ) / 10 := by norm_num
    _ ≤ ((round (10 * x) : ℤ) : ℝ) / 10 := by gcongr

lemma find?_cons_false {α : Type} (p : α → Bool) (x : α) (l : List α)
    (h : p x = false) : List.find? p (x :: l) = List.find? p l := by
  simp [List.find?, h]

lemma find?_cons_true {α : Type} (p : α → Bool) (x : α) (l : List α)
    (h : p x = true) : List.find? p (x :: l) = some x := by
  simp [List.find?, h]

lemma find?_append_of_none {α : Type} (p : α → Bool) (l1 l2 : List α)
    (h : ∀ x ∈ l1, p x = false) :
    List.find? p (l1 ++ l2) = List.find? p l2 := by
  induction l1 with
  | nil => simp
  | cons a t ih =>
    simp only [List.cons_append, List.find?, h a (by simp)]
    exact ih (fun x hx => h x (by simp [hx]))

/-- An upsert walks past a prefix holding no entry for the fingerprint. -/
lemma upsert_prepend (ar tail : List RecipeEntry) (fp : Fingerprint) (l r : ℚ)
    (h : ∀ e ∈ ar, e.fingerprint ≠ fp) :
    upsert (ar ++ tail) fp l r = ar ++ upsert tail fp l r := by
  induction ar with
  | nil => simp
  | cons e es ih =>
    simp only [List.cons_append, upsert, if_neg (h e (by simp))]
    congr 1
    exact ih (fun x hx => h x (by simp [hx]))

/-- An upsert into an archive with no matching entry appends a fresh one. -/
lemma upsert_no_match (ar : List RecipeEntry) (fp : Fingerprint) (l r : ℚ)
    (h : ∀ e ∈ ar, e.fingerprint ≠ fp) :
    upsert ar fp l r = ar ++ [⟨fp, l, r, 1⟩] := by
  have := upsert_prepend ar [] fp l r h
  simpa [upsert] using this

/-! ## Claim theorems -/

/-- C1 counterexample: at ERD 6, flange diameter 8, zero offset, 8 holes,
1 cross, zero calibration offset, the straight-pull branch returns 5.0
(law of cosines at a 90° lacing angle) while the tangent-circle model of
the claim gives 0.0, so the solver does NOT return the tangent-circle
length. -/
theorem straight_pull_defies_tangent_circle_model :
    calculate_spoke 6 8 0 8 1 true 0 = 5 ∧
    straight_pull_spec_length 6 8 0 0 = 0 ∧
    calculate_spoke 6 8 0 8 1 true 0 ≠ straight_pull_spec_length 6 8 0 0 := by
  have hA : calculate_spoke 6 8 0 8 1 true 0 = 5 := by
    simp only [calculate_spoke, Bool.true_eq_false, reduceIte]
    rw [if_neg (by norm_num)]
    rw [show radians (1 * 720 / 8) = Real.pi / 2 by unfold radians; ring,
      Real.cos_pi_div_two]
    rw [show max (0:ℝ) ((6/2)^2 + (8/2)^2 - 2*(6/2)*(8/2)*0 + 0^2) = 5 ^ 2 from by
      norm_num]
    rw [Real.sqrt_sq (by norm_num : (0:ℝ) ≤ 5)]
    unfold round1
    norm_num [round_eq]
  have hB : straight_pull_spec_length 6 8 0 0 = 0 := by
    simp only [straight_pull_spec_length]
    rw [show max (0:ℝ) ((6/2)^2 - (8/2)^2) = 0 from by norm_num, Real.sqrt_zero]
    rw [show (0:ℝ)^2 + 0^2 = 0 from by norm_num, Real.sqrt_zero]
    unfold round1
    norm_num [round_eq]
  refine ⟨hA, hB, ?_⟩
  rw [hA, hB]
  norm_num

/-- C1 (amended): for every straight-pull computation with non-zero ERD,
flange diameter and hole count, the solver returns the same 3-D
law-of-cosines length as the conventional spec formula, with the
calibration offset added (equivalently, with correction `−2·sp_off`);
in particular the straight-pull result DOES depend on the cross count. -/
theorem straight_pull_follows_law_of_cosines
    (erd fd os holes crosses sp_off : ℝ)
    (h1 : erd ≠ 0) (h2 : fd ≠ 0) (h3 : holes ≠ 0) :
    calculate_spoke erd fd os holes crosses true sp_off =
      conventional_spec_length erd fd os holes crosses (-2 * sp_off) := by
  simp only [calculate_spoke, conventional_spec_length, Bool.true_eq_false, reduceIte]
  rw [if_neg (by tauto)]
  rw [show (-2 * sp_off) / 2 = -sp_off by ring, sub_neg_eq_add]
  congr 1
  rw [show (erd/2)^2 + (fd/2)^2 + os^2 -
      2*(erd/2)*(fd/2)*Real.cos (radians (crosses*720/holes)) =
      (erd/2)^2 + (fd/2)^2 -
      2*(erd/2)*(fd/2)*Real.cos (radians (crosses*720/holes)) + os^2 from by ring]

/-- C1 witness: the amended law-of-cosines identity at ERD 600, flange
diameter 58, offset 30, 28 holes, 3 crosses, calibration offset 1. -/
theorem straight_pull_follows_law_of_cosines_inst :
    (600:ℝ) ≠ 0 ∧ (58:ℝ) ≠ 0 ∧ (28:ℝ) ≠ 0 ∧
    calculate_spoke 600 58 30 28 3 true 1 =
      conventional_spec_length 600 58 30 28 3 (-2 * 1) :=
  ⟨by norm_num, by norm_num, by norm_num,
    straight_pull_follows_law_of_cosines 600 58 30 28 3 1
      (by norm_num) (by norm_num) (by norm_num)⟩

/-- C2 counterexample: the degenerate conventional case
(ERD = flange diameter = 600, zero offset, zero crosses) returns −1.2,
not 0, and in particular the result IS negative. -/
theorem degenerate_conventional_is_negative :
    calculate_spoke 600 600 0 28 0 false 0 = -1.2 ∧
    calculate_spoke 600 600 0 28 0 false 0 < 0 := by
  have h : calculate_spoke 600 600 0 28 0 false 0 = -1.2 := by
    simp only [calculate_spoke, reduceIte]
    rw [if_neg (by norm_num)]
    rw [show radians (0 * 720 / 28) = 0 by unfold radians; ring, Real.cos_zero]
    rw [show max (0:ℝ) ((600/2)^2 + (600/2)^2 + 0^2 - 2*(600/2)*(600/2)*1) = 0 from by
      norm_num, Real.sqrt_zero]
    unfold round1
    norm_num [round_eq]
  exact ⟨h, by rw [h]; norm_num⟩

/-- C2 (amended): the conventional result is never below −1.2 (the
clamp bounds the square root at 0 and the subsequent fixed subtraction
is 1.2, so results down to −1.2 are possible but no lower); the
degenerate clamped case returns −1.2, not 0, and raises no exception. -/
theorem conventional_result_ge_neg_six_fifths
    (erd fd os holes crosses s : ℝ) :
    -1.2 ≤ calculate_spoke erd fd os holes crosses false s := by
  by_cases hg : erd = 0 ∨ fd = 0 ∨ holes = 0
  · simp only [calculate_spoke, if_pos hg]; norm_num
  · simp only [calculate_spoke, reduceIte, if_neg hg]
    apply round1_ge_neg_six_fifths
    have := Real.sqrt_nonneg (max 0 ((erd/2)^2 + (fd/2)^2 + os^2 -
      2*(erd/2)*(fd/2)*Real.cos (radians (crosses*720/holes))))
    linarith

/-- C3 counterexample: at ERD 600, flange diameter 580, zero offset, 28
holes, 0 crosses, the solver returns 8.8 while the spec formula with a
request-supplied correction of 0 gives 10.0: the solver does not
subtract a correction supplied in the request. -/
theorem conventional_ignores_request_correction :
    calculate_spoke 600 580 0 28 0 false 0 = 8.8 ∧
    conventional_spec_length 600 580 0 28 0 0 = 10 ∧
    calculate_spoke 600 580 0 28 0 false 0 ≠
      conventional_spec_length 600 580 0 28 0 0 := by
  have hA : calculate_spoke 600 580 0 28 0 false 0 = 8.8 := by
    simp only [calculate_spoke, reduceIte]
    rw [if_neg (by norm_num)]
    rw [show radians (0 * 720 / 28) = 0 by unfold radians; ring, Real.cos_zero]
    rw [show max (0:ℝ) ((600/2)^2 + (580/2)^2 + 0^2 - 2*(600/2)*(580/2)*1) = 10 ^ 2 from by
      norm_num]
    rw [Real.sqrt_sq (by norm_num : (0:ℝ) ≤ 10)]
    unfold round1
    norm_num [round_eq]
  have hB : conventional_spec_length 600 580 0 28 0 0 = 10 := by
    simp only [conventional_spec_length]
    rw [show radians (0 * 720 / 28) = 0 by unfold radians; ring, Real.cos_zero]
    rw [show max (0:ℝ) ((600/2)^2 + (580/2)^2 + 0^2 - 2*(600/2)*(580/2)*1) = 10 ^ 2 from by
      norm_num]
    rw [Real.sqrt_sq (by norm_num : (0:ℝ) ≤ 10)]
    unfold round1
    norm_num [round_eq]
  refine ⟨hA, hB, ?_⟩
  rw [hA, hB]
  norm_num

/-- C3 (amended): for every conventional computation with non-zero ERD,
flange diameter and hole count, the solver computes the clamped
law-of-cosines length and subtracts half of a FIXED 2.4 mm
hole-diameter correction (i.e. 1.2 mm), regardless of the value of the
trailing request argument. -/
theorem conventional_matches_spec_with_fixed_correction
    (erd fd os holes crosses s : ℝ)
    (h1 : erd ≠ 0) (h2 : fd ≠ 0) (h3 : holes ≠ 0) :
    calculate_spoke erd fd os holes crosses false s =
      conventional_spec_length erd fd os holes crosses 2.4 := by
  simp only [calculate_spoke, conventional_spec_length, reduceIte]
  rw [if_neg (by tauto)]
  norm_num

/-- C3 witness: the amended fixed-correction identity at ERD 600,
flange diameter 58, offset 30, 28 holes, 3 crosses, request argument 7. -/
theorem conventional_matches_spec_with_fixed_correction_inst :
    (600:ℝ) ≠ 0 ∧ (58:ℝ) ≠ 0 ∧ (28:ℝ) ≠ 0 ∧
    calculate_spoke 600 58 30 28 3 false 7 =
      conventional_spec_length 600 58 30 28 3 2.4 :=
  ⟨by norm_num, by norm_num, by norm_num,
    conventional_matches_spec_with_fixed_correction 600 58 30 28 3 7
      (by norm_num) (by norm_num) (by norm_num)⟩

/-- C4: whenever ERD, flange diameter, or hole count is zero or missing
(a missing value arrives as the `row.get(key, 0)` default), the solver
returns exactly 0.0 and raises no exception, for both lacing types and
every value of the remaining arguments. -/
theorem zero_or_missing_returns_zero
    (erd fd os holes : Option ℝ) (crosses : ℝ) (is_sp : Bool) (sp_off : Option ℝ)
    (h : (erd = none ∨ erd = some 0) ∨ (fd = none ∨ fd = some 0) ∨
      (holes = none ∨ holes = some 0)) :
    calculate_spoke_from_row erd fd os holes crosses is_sp sp_off = 0 := by
  have hg : erd.getD 0 = 0 ∨ fd.getD 0 = 0 ∨ holes.getD 0 = 0 := by
    rcases h with (h | h) | (h | h) | (h | h) <;> simp [h]
  unfold calculate_spoke_from_row calculate_spoke
  rw [if_pos hg]

/-- C4 witness: missing ERD with arbitrary other arguments, straight-pull. -/
theorem zero_or_missing_returns_zero_inst :
    (((none : Option ℝ) = none ∨ (none : Option ℝ) = some 0) ∨
      ((some (58:ℝ) : Option ℝ) = none ∨ (some (58:ℝ) : Option ℝ) = some 0) ∨
      ((some (32:ℝ) : Option ℝ) = none ∨ (some (32:ℝ) : Option ℝ) = some 0)) ∧
    calculate_spoke_from_row none (some 58) (some 30) (some 32) 2 true (some 1) = 0 :=
  ⟨Or.inl (Or.inl rfl),
    zero_or_missing_returns_zero none (some 58) (some 30) (some 32) 2 true (some 1)
      (Or.inl (Or.inl rfl))⟩

/-- C5 counterexample: a catalog containing exactly the entry labelled
"Sapim Race" does NOT resolve the query "Sapim Race (290mm J-Bend)":
the resolver performs no parenthetical stripping, so the lookup returns
not-found instead of that entry's attributes. -/
theorem resolver_keeps_parenthetical_suffix :
    get_comp_data [("Sapim Race", (⟨some (43/10), none⟩ : CompRow))]
      "Sapim Race (290mm J-Bend)" = none := by decide

/-- C5 (amended): the resolver does not strip parenthetical suffixes;
a query matches only on exact equality of the trimmed, lowercased
texts, so an entry labelled "Sapim Race" is skipped by the query
"Sapim Race (290mm J-Bend)" (the search continues past it unchanged). -/
theorem resolver_skips_entry_without_suffix {α : Type} (a : α)
    (rest : List (String × α)) :
    get_comp_data (("Sapim Race", a) :: rest) "Sapim Race (290mm J-Bend)" =
      get_comp_data rest "Sapim Race (290mm J-Bend)" := by
  unfold get_comp_data
  rw [if_neg (by simp)]
  rw [find?_cons_false
    (fun (e : String × α) => norm_label e.1 == norm_label "Sapim Race (290mm J-Bend)")
    ("Sapim Race", a) rest
    (by show (norm_label "Sapim Race" == norm_label "Sapim Race (290mm J-Bend)") = false
        decide)]
  cases rest with
  | nil => simp
  | cons b t => rw [if_neg (by simp)]

/-- C6 counterexample: the query " dt Swiss  240s " (doubled interior
space) does NOT match a catalog whose only entry is labelled
"DT Swiss 240s": only leading/trailing whitespace is trimmed, interior
whitespace is significant. -/
theorem resolver_sensitive_to_interior_whitespace :
    get_comp_data [("DT Swiss 240s", (⟨some 102, none⟩ : CompRow))]
      " dt Swiss  240s " = none := by decide

/-- C6 (amended): matching is case-insensitive and insensitive to
LEADING/TRAILING whitespace on both sides, but interior whitespace must
match exactly: " dt Swiss 240s " (single interior spaces) resolves to
the entry labelled "DT Swiss 240s". -/
theorem resolver_case_and_outer_space_insensitive {α : Type} (a : α)
    (rest : List (String × α)) :
    get_comp_data (("DT Swiss 240s", a) :: rest) " dt Swiss 240s " =
      some ("DT Swiss 240s", a) := by
  unfold get_comp_data
  rw [if_neg (by simp)]
  rw [find?_cons_true
    (fun (e : String × α) => norm_label e.1 == norm_label " dt Swiss 240s ")
    ("DT Swiss 240s", a) rest
    (by show (norm_label "DT Swiss 240s" == norm_label " dt Swiss 240s ") = true
        decide)]

/-- C7: for a wheel whose rim resolves in the catalog, the aggregated
wheel weight is rim mass + hub mass + hole count × (spoke unit mass +
nipple unit mass), with an unresolved hub mass (or missing weight
field) treated as zero and the hole count defaulting to 28. -/
theorem wheel_weight_formula (df_rims df_hubs : List (String × CompRow))
    (sw nw : ℚ) (f_rim f_hub lbl : String) (rd : CompRow)
    (h : get_comp_data df_rims f_rim = some (lbl, rd)) :
    front_weight df_rims df_hubs sw nw f_rim f_hub =
      rd.weight.getD 0 + comp_weight df_hubs f_hub +
        (rd.holes.getD 28 : ℚ) * (sw + nw) := by
  unfold front_weight
  rw [h]

/-- C7 witness: rim 380 g with 28 holes, hub 210 g, spoke 5.2 g,
nipple 0.8 g gives a wheel total of 758 g. -/
theorem wheel_weight_formula_inst :
    get_comp_data [("Race Rim 30", (⟨some 380, some 28⟩ : CompRow))] "Race Rim 30" =
      some ("Race Rim 30", (⟨some 380, some 28⟩ : CompRow)) ∧
    front_weight [("Race Rim 30", ⟨some 380, some 28⟩)]
      [("Race Hub", ⟨some 210, none⟩)] (26/5) (4/5) "Race Rim 30" "Race Hub" = 758 := by
  have hrim : get_comp_data [("Race Rim 30", (⟨some 380, some 28⟩ : CompRow))]
      "Race Rim 30" = some ("Race Rim 30", (⟨some 380, some 28⟩ : CompRow)) := by decide
  have hhub : get_comp_data [("Race Hub", (⟨some 210, none⟩ : CompRow))] "Race Hub" =
      some ("Race Hub", (⟨some 210, none⟩ : CompRow)) := by decide
  refine ⟨hrim, ?_⟩
  rw [wheel_weight_formula [("Race Rim 30", ⟨some 380, some 28⟩)]
    [("Race Hub", ⟨some 210, none⟩)] (26/5) (4/5) "Race Rim 30" "Race Hub"
    "Race Rim 30" ⟨some 380, some 28⟩ hrim]
  unfold comp_weight
  rw [hhub]
  norm_num

/-- C8: upserting a fresh fingerprint creates exactly one matching
entry with hit count 1 holding the given lengths, and a second upsert
with the same fingerprint leaves exactly one matching entry with hit
count 2 and the latest lengths, creating no new row. -/
theorem recipe_upsert_creates_then_increments
    (archive : List RecipeEntry) (fp : Fingerprint) (l1 r1 l2 r2 : ℚ)
    (h : ∀ e ∈ archive, e.fingerprint ≠ fp) :
    (upsert archive fp l1 r1).countP (fun e => decide (e.fingerprint = fp)) = 1 ∧
    (upsert archive fp l1 r1).find? (fun e => decide (e.fingerprint = fp)) =
      some ⟨fp, l1, r1, 1⟩ ∧
    (upsert (upsert archive fp l1 r1) fp l2 r2).countP
      (fun e => decide (e.fingerprint = fp)) = 1 ∧
    (upsert (upsert archive fp l1 r1) fp l2 r2).find?
      (fun e => decide (e.fingerprint = fp)) = some ⟨fp, l2, r2, 2⟩ ∧
    (upsert (upsert archive fp l1 r1) fp l2 r2).length =
      (upsert archive fp l1 r1).length := by
  have hfalse : ∀ x ∈ archive, (fun e => decide (e.fingerprint = fp)) x = false := by
    intro x hx
    simp [h x hx]
  have h1 : upsert archive fp l1 r1 = archive ++ [⟨fp, l1, r1, 1⟩] :=
    upsert_no_match archive fp l1 r1 h
  have h2 : upsert (upsert archive fp l1 r1) fp l2 r2 =
      archive ++ [⟨fp, l2, r2, 2⟩] := by
    rw [h1, upsert_prepend archive _ fp l2 r2 h]
    simp [upsert]
  have hcount0 : archive.countP (fun e => decide (e.fingerprint = fp)) = 0 :=
    List.countP_eq_zero.mpr (by intro x hx; simp [h x hx])
  refine ⟨?_, ?_, ?_, ?_, ?_⟩
  · rw [h1, List.countP_append, hcount0]
    simp [List.countP, List.countP.go]
  · rw [h1, find?_append_of_none _ _ _ hfalse]
    simp [List.find?]
  · rw [h2, List.countP_append, hcount0]
    simp [List.countP, List.countP.go]
  · rw [h2, find?_append_of_none _ _ _ hfalse]
    simp [List.find?]
  · rw [h2, h1]
    simp

/-- C8 witness: two upserts of the fingerprint ("R Rim", "R Hub", 28, 3,
true) into an archive holding one unrelated entry. -/
theorem recipe_upsert_creates_then_increments_inst :
    (∀ e ∈ ([⟨("A Rim", "A Hub", 32, 3, false), 290, 292, 5⟩] : List RecipeEntry),
      e.fingerprint ≠ ("R Rim", "R Hub", 28, 3, true)) ∧
    ((upsert [⟨("A Rim", "A Hub", 32, 3, false), 290, 292, 5⟩]
      ("R Rim", "R Hub", 28, 3, true) 289 291).countP
      (fun e => decide (e.fingerprint = ("R Rim", "R Hub", 28, 3, true))) = 1 ∧
    (upsert [⟨("A Rim", "A Hub", 32, 3, false), 290, 292, 5⟩]
      ("R Rim", "R Hub", 28, 3, true) 289 291).find?
      (fun e => decide (e.fingerprint = ("R Rim", "R Hub", 28, 3, true))) =
      some ⟨("R Rim", "R Hub", 28, 3, true), 289, 291, 1⟩ ∧
    (upsert (upsert [⟨("A Rim", "A Hub", 32, 3, false), 290, 292, 5⟩]
      ("R Rim", "R Hub", 28, 3, true) 289 291) ("R Rim", "R Hub", 28, 3, true)
      288 290).countP
      (fun e => decide (e.fingerprint = ("R Rim", "R Hub", 28, 3, true))) = 1 ∧
    (upsert (upsert [⟨("A Rim", "A Hub", 32, 3, false), 290, 292, 5⟩]
      ("R Rim", "R Hub", 28, 3, true) 289 291) ("R Rim", "R Hub", 28, 3, true)
      288 290).find?
      (fun e => decide (e.fingerprint = ("R Rim", "R Hub", 28, 3, true))) =
      some ⟨("R Rim", "R Hub", 28, 3, true), 288, 290, 2⟩ ∧
    (upsert (upsert [⟨("A Rim", "A Hub", 32, 3, false), 290, 292, 5⟩]
      ("R Rim", "R Hub", 28, 3, true) 289 291) ("R Rim", "R Hub", 28, 3, true)
      288 290).length =
      (upsert [⟨("A Rim", "A Hub", 32, 3, false), 290, 292, 5⟩]
      ("R Rim", "R Hub", 28, 3, true) 289 291).length) :=
  ⟨by decide,
    recipe_upsert_creates_then_increments
      [⟨("A Rim", "A Hub", 32, 3, false), 290, 292, 5⟩]
      ("R Rim", "R Hub", 28, 3, true) 289 291 288 290 (by decide)⟩

/-- C9: for non-zero ERD, flange diameter and hole count, and for every
value of the trailing straight-pull offset argument, the conventional
result equals the straight-pull result taken with calibration offset
−1.2: both branches compute the same law-of-cosines length and differ
only by the additive constant. -/
theorem conventional_eq_straight_pull_neg_offset
    (erd fd os holes crosses s : ℝ)
    (h1 : erd ≠ 0) (h2 : fd ≠ 0) (h3 : holes ≠ 0) :
    calculate_spoke erd fd os holes crosses false s =
      calculate_spoke erd fd os holes crosses true (-1.2) := by
  simp only [calculate_spoke, Bool.true_eq_false, if_false, reduceIte]
  rw [if_neg (by tauto), if_neg (by tauto), sub_eq_add_neg]
  congr 1
  rw [show (erd/2)^2 + (fd/2)^2 + os^2 -
      2*(erd/2)*(fd/2)*Real.cos (radians (crosses*720/holes)) =
      (erd/2)^2 + (fd/2)^2 -
      2*(erd/2)*(fd/2)*Real.cos (radians (crosses*720/holes)) + os^2 from by ring]

/-- C9 witness: the branch identity at ERD 600, flange diameter 58,
offset 30, 28 holes, 3 crosses, straight-pull argument 7. -/
theorem conventional_eq_straight_pull_neg_offset_inst :
    (600:ℝ) ≠ 0 ∧ (58:ℝ) ≠ 0 ∧ (28:ℝ) ≠ 0 ∧
    calculate_spoke 600 58 30 28 3 false 7 =
      calculate_spoke 600 58 30 28 3 true (-1.2) :=
  ⟨by norm_num, by norm_num, by norm_num,
    conventional_eq_straight_pull_neg_offset 600 58 30 28 3 7
      (by norm_num) (by norm_num) (by norm_num)⟩

/-- C10: the solver is total and exception-free: the checked evaluator,
which models Python's `ZeroDivisionError` on the division by the hole
count and the math domain error of `sqrt` on a negative argument as
`none`, always returns `some` of the unchecked result. -/
theorem calculate_spoke_never_raises
    (erd fd os holes crosses : ℝ) (is_sp : Bool) (sp_off : ℝ) :
    calculate_spoke_checked erd fd os holes crosses is_sp sp_off =
      some (calculate_spoke erd fd os holes crosses is_sp sp_off) := by
  by_cases hg : erd = 0 ∨ fd = 0 ∨ holes = 0
  · simp only [calculate_spoke_checked, calculate_spoke, if_pos hg]
  · have hh : holes ≠ 0 := by tauto
    simp only [calculate_spoke_checked, calculate_spoke, if_neg hg, checked_div,
      if_neg hh, checked_sqrt]
    cases is_sp
    · simp only [reduceIte]
      rw [if_neg (not_lt.mpr (le_max_left 0 _))]
      rfl
    · simp only [Bool.true_eq_false, reduceIte]
      rw [if_neg (not_lt.mpr (le_max_left 0 _))]
      rfl

end Wheelbuilder
